import Mathlib

/-!
Verification development for the rodbot rule engine.

Shallow embedding of the repository's four source files:
  - src/event.rs   : typed event model (issue-comment events);
  - src/config.rs  : rule-file model (rule blocks, condition trees, steps);
  - src/runner.rs  : condition evaluator, template engine, step executor,
                     orchestrator.

Shell execution is abstracted by an explicit environment `ExecEnv` supplying
the result of spawning a process (`Command::status()`), and the runner
functions return the trace of process invocations they perform, so that the
executor's control flow (which commands run, in which order, and what aborts
the run) is observable in the embedding.
-/

namespace Rodbot

/-! Event model, from src/event.rs. -/

/-- The `AuthorAssociation` enum of src/event.rs (lines 98-109). -/
inductive AuthorAssociation where
  | collaborator
  | contributor
  | firstTimer
  | firstTimeContributor
  | mannequin
  | member
  | assocNone
  | owner
deriving DecidableEq, Repr

/-- The `User` struct of src/event.rs. -/
structure User where
  login : String
deriving DecidableEq, Repr

/-- The `Sender` struct of src/event.rs. -/
structure Sender where
  login : String
deriving DecidableEq, Repr

/-- The `Comment` struct of src/event.rs. -/
structure Comment where
  author_association : AuthorAssociation
  body : String
  id : Nat
  user : User
deriving DecidableEq, Repr

/-- The `PullRequest` struct of src/event.rs. -/
structure PullRequest where
  diff_url : String
  html_url : String
  patch_url : String
  url : String
deriving DecidableEq, Repr

/-- The `Label` struct of src/event.rs. -/
structure Label where
  color : String
  labelDefault : Bool
  description : Option String
  id : Nat
  name : String
  node_id : String
  url : String
deriving DecidableEq, Repr

/-- The `Issue` struct of src/event.rs. -/
structure Issue where
  author_association : AuthorAssociation
  body : Option String
  comments : Nat
  id : Nat
  labels : List Label
  locked : Bool
  number : Nat
  pull_request : Option PullRequest
  url : String
deriving DecidableEq, Repr

/-- The `CommonEvent` struct of src/event.rs. -/
structure CommonEvent where
  action : String
  sender : Sender
deriving DecidableEq, Repr

/-- The `IssueCommentEvent` struct of src/event.rs. -/
structure IssueCommentEvent where
  common : CommonEvent
  comment : Comment
  issue : Issue
deriving DecidableEq, Repr

/-- The `Event` enum of src/event.rs (lines 6-10): one variant. -/
inductive Event where
  | issueComment (e : IssueCommentEvent)
deriving DecidableEq, Repr

/-! Rule-file model, from src/config.rs. -/

/-- The `IfIssueComment` condition-tree enum of src/config.rs (lines 36-46). -/
inductive IfIssueComment where
  | neg (c : IfIssueComment)
  | conj (l : List IfIssueComment)
  | disj (l : List IfIssueComment)
  | isPr
  | userIs (expected : List AuthorAssociation)
  | userIn (expected : List String)
  | command (name : String)

/-- The `Step` enum of src/config.rs (lines 48-52): one variant, `Run`. -/
inductive Step where
  | Run (command : String)
deriving DecidableEq, Repr

/-- The `OnCommon` struct of src/config.rs. -/
structure OnCommon where
  steps : List Step
deriving DecidableEq, Repr

/-- The `OnIssueComment` struct of src/config.rs: a rule block with its
condition list `r#if` (written `if_` here) and flattened common part. -/
structure OnIssueComment where
  common : OnCommon
  if_ : List IfIssueComment

/-- The `OnIssue` struct of src/config.rs. -/
structure OnIssue where
  common : OnCommon
deriving DecidableEq, Repr

/-- The `On` struct of src/config.rs. -/
structure On where
  issue : Option (List OnIssue)
  issue_comment : Option (List OnIssueComment)

/-- The `Config` struct of src/config.rs. -/
structure Config where
  «on» : On

/-! Condition evaluator, from src/runner.rs. -/

/-- Whitespace test modelling Rust's `char::is_whitespace` on the ASCII
whitespace characters (the only ones exercised here). -/
def isWsp (c : Char) : Bool :=
  c == ' ' || c == '\t' || c == '\n' || c == '\r'

/-- Trimming of surrounding whitespace, modelling Rust's `str::trim`
(restricted to ASCII whitespace), on character lists. -/
def trimChars (cs : List Char) : List Char :=
  ((cs.dropWhile isWsp).reverse.dropWhile isWsp).reverse

/-- First line of a body, modelling `str::lines().next()` from Rust's
standard library as used in src/runner.rs line 150: `None` for the empty
string; otherwise the text before the first newline, with one trailing
carriage return stripped when a newline terminated the line. -/
def firstLine (cs : List Char) : Option (List Char) :=
  match cs with
  | [] => none
  | _ =>
    if cs.contains '\n' then
      let l := cs.takeWhile (fun c => c ≠ '\n')
      some (if l.getLast? = some '\r' then l.dropLast else l)
    else some cs

/-- The `is_command` function of src/runner.rs (lines 149-155): the first
line of `body`, trimmed, must start with `"/" ++ command`. The source wraps
the result in `Ok`; no error path exists, so the embedding returns `Bool`. -/
def is_command (command : String) (body : String) : Bool :=
  match firstLine body.toList with
  | some line => List.isPrefixOf ('/' :: command.toList) (trimChars line)
  | none => false

mutual

/-- The `Eval` impl for `IfIssueComment` (src/runner.rs lines 123-147). The
four leaf arms are translated from the source. Modelled from the spec: the
`not`/`and`/`or` arms of this `match` are missing from src/runner.rs (the
source match covers only the leaves although src/config.rs declares the
three recursive variants); they follow spec section 4.1: `not(c)` is the
negation of the child, `and(list)` is false on the empty list and otherwise
the left-to-right short-circuit conjunction, `or(list)` is false on the
empty list and otherwise the left-to-right short-circuit disjunction. -/
def IfIssueComment.eval : IfIssueComment → IssueCommentEvent → Bool
  | .neg c, payload => !(IfIssueComment.eval c payload)
  | .conj l, payload =>
    if l.isEmpty then false else IfIssueComment.evalConj l payload
  | .disj l, payload =>
    if l.isEmpty then false else IfIssueComment.evalDisj l payload
  | .isPr, payload => payload.issue.pull_request.isSome
  | .userIs expected, payload =>
    expected.contains payload.comment.author_association
  | .userIn expected, payload => expected.contains payload.comment.user.login
  | .command expected, payload => is_command expected payload.comment.body

/-- Left-to-right short-circuit conjunction of a condition list's verdicts
(the nonempty case of `and`). -/
def IfIssueComment.evalConj : List IfIssueComment → IssueCommentEvent → Bool
  | [], _ => true
  | c :: rest, payload =>
    IfIssueComment.eval c payload && IfIssueComment.evalConj rest payload

/-- Left-to-right short-circuit disjunction of a condition list's verdicts
(the nonempty case of `or`). -/
def IfIssueComment.evalDisj : List IfIssueComment → IssueCommentEvent → Bool
  | [], _ => false
  | c :: rest, payload =>
    IfIssueComment.eval c payload || IfIssueComment.evalDisj rest payload

end

/-- The `Eval` impl for `Vec<T>` (src/runner.rs lines 107-121): evaluate the
items in order, return false at the first false verdict, true otherwise —
in particular true on the empty list. -/
def evalVec (l : List IfIssueComment) (payload : IssueCommentEvent) : Bool :=
  l.all (fun c => c.eval payload)

theorem evalConj_eq_all (l : List IfIssueComment) (payload : IssueCommentEvent) :
    IfIssueComment.evalConj l payload = l.all (fun c => c.eval payload) := by
  induction l with
  | nil => rfl
  | cons c rest ih => simp [IfIssueComment.evalConj, List.all_cons, ih]

theorem evalDisj_eq_any (l : List IfIssueComment) (payload : IssueCommentEvent) :
    IfIssueComment.evalDisj l payload = l.any (fun c => c.eval payload) := by
  induction l with
  | nil => rfl
  | cons c rest ih => simp [IfIssueComment.evalDisj, List.any_cons, ih]

/-! Template engine, from src/runner.rs lines 173-330.

The rendering context is a `serde_json::Value`; the embedding's `Json` type
mirrors it, with numbers restricted to the integers exercised here (the
floating-point side of `serde_json::Number` is out of scope). Objects are
association lists with the unique keys a `serde_json::Map` guarantees. -/

/-- JSON values, modelling `serde_json::Value`. -/
inductive Json where
  | null
  | bool (b : Bool)
  | num (n : Int)
  | str (s : String)
  | arr (elems : List Json)
  | obj (entries : List (String × Json))

/-- Scalar string form of a matched value, from the `filter_map` of
src/runner.rs lines 255-260: strings, numbers and booleans keep their
canonical textual form (`to_string`), everything else is dropped. -/
def scalarString : Json → Option String
  | .str s => some s
  | .num n => some (toString n)
  | .bool b => some (toString b)
  | _ => none

/-- One segment of a compiled path: a child name or the wildcard. -/
inductive Seg where
  | field (name : String)
  | wildcard
deriving DecidableEq, Repr

/-- Splitting a character list at every dot, modelling `str::split('.')` as
the jsonpath crate tokenizes the dotted path: the result always has at least
one (possibly empty) piece. -/
def splitDots : List Char → List (List Char)
  | [] => [[]]
  | '.' :: rest => [] :: splitDots rest
  | c :: rest =>
    match splitDots rest with
    | s :: ss => (c :: s) :: ss
    | [] => [[c]]

/-- One dotted segment compiled, modelling the jsonpath crate: `*` is the
wildcard, an empty segment is a compile error, anything else a child name. -/
def parseSeg (cs : List Char) : Option Seg :=
  if cs = ['*'] then some Seg.wildcard
  else if cs = [] then none
  else some (Seg.field (String.mk cs))

/-- Compilation of every dotted segment in turn; any bad segment fails the
whole compilation. -/
def parseSegs : List (List Char) → Option (List Seg)
  | [] => some []
  | s :: ss =>
    match parseSeg s, parseSegs ss with
    | some a, some as => some (a :: as)
    | _, _ => none

/-- Modelled from the spec: compilation of `Selector::new("$." ++ expr)` of
the external jsonpath crate (src/runner.rs lines 251-252), on the dotted
subset of the path language (child names and the `*` wildcard; brackets and
filters are out of scope). The expression is split at dots; an empty
expression or an empty segment fails to compile. -/
def parsePath (expr : String) : Option (List Seg) :=
  parseSegs (splitDots expr.toList)

/-- Modelled from the spec: `Selector::find` of the external jsonpath crate
(src/runner.rs lines 253-254) on the dotted subset — the list of values
reached from the context by following the compiled segments, a child name
selecting that key of an object and the wildcard selecting every object
value or array element. -/
def findPath : List Seg → Json → List Json
  | [], v => [v]
  | Seg.field f :: rest, .obj entries =>
    match entries.find? (fun e => e.1 = f) with
    | some e => findPath rest e.2
    | none => []
  | Seg.field _ :: _, _ => []
  | Seg.wildcard :: rest, .obj entries =>
    entries.flatMap (fun e => findPath rest e.2)
  | Seg.wildcard :: rest, .arr elems => elems.flatMap (findPath rest)
  | Seg.wildcard :: _, _ => []

/-- The `JsonPathReplacer::replace` method of src/runner.rs (lines 249-271):
trim the captured expression, compile `$.expr`, collect the scalar matches,
then apply the result-set policy — zero matches give the empty string, one
match gives its scalar form, several are an error. -/
def JsonPathReplacer.replace (context : Json) (expr : String) :
    Except String String :=
  match parsePath (String.mk (trimChars expr.toList)) with
  | none => Except.error ("invalid path: " ++ expr)
  | some segs =>
    let val := (findPath segs context).filterMap scalarString
    match val with
    | [] => Except.ok ""
    | [n] => Except.ok n
    | n => Except.error ("More than one item found: " ++ toString n)

/-- Interior of a template expression, modelling how the regex
`\$\{\{(.*?)\}\}` of src/runner.rs line 174 completes a match once `${{` has
been read: the shortest run of non-newline characters up to the first `}}`;
`none` when a newline or the end of input comes first (the `.` of the regex
does not match a newline). -/
def findInterior : List Char → Option (String × List Char)
  | [] => none
  | c :: rest =>
    if c = '\n' then none
    else if c = '}' ∧ rest.head? = some '}' then some ("", rest.tail)
    else (findInterior rest).map (fun p => (c.toString ++ p.1, p.2))

theorem findInterior_length :
    ∀ cs i r, findInterior cs = some (i, r) → r.length < cs.length := by
  intro cs
  induction cs with
  | nil => intro i r h; simp [findInterior] at h
  | cons c rest ih =>
    intro i r h
    rw [findInterior] at h
    by_cases hn : c = '\n'
    · simp [hn] at h
    · rw [if_neg hn] at h
      by_cases hb : c = '}' ∧ rest.head? = some '}'
      · rw [if_pos hb] at h
        have hr : r = rest.tail := by
          have := h
          simp at this
          exact this.2.symm
        cases rest with
        | nil => simp at hb
        | cons d rest' =>
          subst hr
          simp [List.length_cons]
          omega
      · rw [if_neg hb] at h
        match hf : findInterior rest with
        | none => rw [hf] at h; simp at h
        | some (i', r') =>
          rw [hf] at h
          simp at h
          have := ih i' r' hf
          rw [← h.2]
          simp [List.length_cons]
          omega

/-- One token of a scanned template: literal text or the interior of one
`${{ ... }}` site. -/
inductive Tok where
  | lit (s : String)
  | expr (s : String)
deriving DecidableEq, Repr

/-- Scanning of a template by the process-wide regex `\$\{\{(.*?)\}\}`
(src/runner.rs lines 173-175) as `Regex::replace_all` walks it: at `${{`
with a closing `}}` in reach, one expression token is produced and the scan
resumes after the match; everywhere else one character of literal text is
passed through and the scan advances one position. -/
def tokenize : List Char → List Tok
  | [] => []
  | '$' :: '{' :: '{' :: rest =>
    match h : findInterior rest with
    | some (interior, rest') => Tok.expr interior :: tokenize rest'
    | none => Tok.lit "$" :: tokenize ('{' :: '{' :: rest)
  | c :: rest => Tok.lit c.toString :: tokenize rest
termination_by cs => cs.length
decreasing_by
  · simp only [List.length_cons]
    have := findInterior_length rest interior rest' h
    omega
  · simp [List.length_cons]
  · simp [List.length_cons]

/-- The interiors of all delimiter sites of a template, in order. -/
def templateSites (cs : List Char) : List String :=
  (tokenize cs).filterMap
    (fun t => match t with | Tok.expr i => some i | Tok.lit _ => none)

/-- Processing of the token stream by the `Replacer` impl for
`JsonPathReplacer` (src/runner.rs lines 233-246): literal text is copied to
the output; each expression is evaluated by `f`, a success appending its
result and a failure appending nothing and recording the error. Returns the
built string and the recorded errors, in order. -/
def renderTokens (f : String → Except String String) :
    List Tok → String × List String
  | [] => ("", [])
  | Tok.lit s :: ts =>
    let r := renderTokens f ts
    (s ++ r.1, r.2)
  | Tok.expr i :: ts =>
    let r := renderTokens f ts
    match f i with
    | Except.ok s => (s ++ r.1, r.2)
    | Except.error e => (r.1, e :: r.2)

/-- The `RE.replace_all(text, replacer)` call of src/runner.rs line 319,
with the replacer's error side-channel made explicit. -/
def replace_all (f : String → Except String String) (cs : List Char) :
    String × List String :=
  renderTokens f (tokenize cs)

/-- The `eval` function of src/runner.rs (lines 313-330): replace every
delimiter site; if errors were recorded, fail with the single error when
exactly one occurred and with the aggregate message otherwise; else return
the substituted text. -/
def eval (text : String) (context : List (String × Json)) :
    Except String String :=
  let r := replace_all (JsonPathReplacer.replace (Json.obj context)) text.toList
  match r.2 with
  | [] => Except.ok r.1
  | [e] => Except.error e
  | es => Except.error ("Failed with multiple errors: " ++ toString es)

/-! Step executor and orchestrator, from src/runner.rs and src/main.rs. -/

/-- Trace of the process invocations a run performs: program and argument
list of each spawned command, in order. -/
abbrev Trace := List (String × List String)

/-- Abstraction of the operating system's process spawning: `sh prog args`
is what `Command::status()` returns for that invocation — an error when the
process could not be spawned, otherwise the process's exit status. -/
structure ExecEnv where
  sh : String → List String → Except String Int

/-- Coercion of the rendering context applied by `run` (src/runner.rs lines
158-161): an object keeps its entries, any other value is replaced by the
empty map. -/
def ctxMap : Json → List (String × Json)
  | .obj m => m
  | _ => []

/-- The `run` function of src/runner.rs (lines 157-171): render the command
template against the coerced context, spawn `sh -c <rendered>`, propagate a
render or spawn error, and return `Ok` regardless of the exit status —
`cmd.status()?` only fails when spawning fails, and the returned
`ExitStatus` is discarded. -/
def runShell (env : ExecEnv) (command : String) (context : Json) :
    Except String Trace :=
  match eval command (ctxMap context) with
  | Except.error e => Except.error e
  | Except.ok rendered =>
    match env.sh "sh" ["-c", rendered] with
    | Except.error e => Except.error e
    | Except.ok _status => Except.ok [("sh", ["-c", rendered])]

/-- The `Runner` impl for `Step` (src/runner.rs lines 95-105). -/
def Step.run (env : ExecEnv) (s : Step) (payload : Json) :
    Except String Trace :=
  match s with
  | Step.Run command => runShell env command payload

/-- The `Runner` impl for `Vec<Step>` (src/runner.rs lines 48-60): run the
steps in order, the first error aborting the rest. -/
def runSteps (env : ExecEnv) (steps : List Step) (payload : Json) :
    Except String Trace :=
  match steps with
  | [] => Except.ok []
  | s :: rest =>
    match s.run env payload with
    | Except.error e => Except.error e
    | Except.ok t =>
      match runSteps env rest payload with
      | Except.error e => Except.error e
      | Except.ok ts => Except.ok (t ++ ts)

/-- The `Runner` impl for `OnIssueComment` (src/runner.rs lines 62-84):
evaluate each condition of the block's `if` list in order and return `Ok`
with nothing run at the first false verdict; when every condition holds —
vacuously so for an empty list — run the block's steps through the
`OnCommon` runner (lines 86-93), which passes the rendering context on. -/
def OnIssueComment.run (env : ExecEnv) (b : OnIssueComment) (context : Json)
    (payload : IssueCommentEvent) : Except String Trace :=
  if b.if_.all (fun i => i.eval payload) then
    runSteps env b.common.steps context
  else Except.ok []

/-- The `Runner` impl for `Vec<OnIssueComment>` (src/runner.rs lines 48-60):
run the rule blocks in order, the first error aborting the rest. -/
def runBlocks (env : ExecEnv) (blocks : List OnIssueComment) (context : Json)
    (payload : IssueCommentEvent) : Except String Trace :=
  match blocks with
  | [] => Except.ok []
  | b :: rest =>
    match b.run env context payload with
    | Except.error e => Except.error e
    | Except.ok t =>
      match runBlocks env rest context payload with
      | Except.error e => Except.error e
      | Except.ok ts => Except.ok (t ++ ts)

/-- The `Runner` impl for `Config` (src/runner.rs lines 30-46): dispatch on
the event; for an issue-comment event run the configured rule blocks when
present, and succeed with nothing run when `on.issue_comment` is `None`. -/
def Config.run (env : ExecEnv) (cfg : Config) (context : Json)
    (event : Event) : Except String Trace :=
  match event with
  | Event.issueComment payload =>
    match cfg.on.issue_comment with
    | some blocks => runBlocks env blocks context payload
    | none => Except.ok []

/-- The `Event::from_env` function of src/event.rs (lines 13-24), with the
`GITHUB_EVENT_NAME` variable and the payload parse made explicit inputs: the
name `issue_comment` wraps the parsed payload, any other name is the
"Unknown or unsupported event type" error, a missing variable its own
error. -/
def Event.from_env (github_event_name : Option String)
    (payload : Except String IssueCommentEvent) : Except String Event :=
  match github_event_name with
  | some name =>
    if name = "issue_comment" then payload.map Event.issueComment
    else Except.error ("Unknown or unsupported event type: " ++ name)
  | none => Except.error "Missing GITHUB_EVENT_NAME"

/-- The run performed by `main` (src/main.rs lines 72-87) once flags and the
rule file are read: build the event from the environment, propagating its
error, then run the configuration against it with the rendering context. -/
def mainRun (env : ExecEnv) (github_event_name : Option String)
    (payload : Except String IssueCommentEvent) (cfg : Config)
    (context : Json) : Except String Trace :=
  match Event.from_env github_event_name payload with
  | Except.error e => Except.error e
  | Except.ok event => cfg.run env context event

/-! Helper lemmas shared by the claim theorems. -/

/-- Error component of one expression's replacement result. -/
def errOf (r : Except String String) : Option String :=
  match r with
  | Except.ok _ => none
  | Except.error e => some e

/-- The per-expression errors a render of `text` against `context` records:
every delimiter site of the template, evaluated independently, keeping the
failures in order. -/
def renderErrors (text : String) (context : List (String × Json)) :
    List String :=
  (templateSites text.toList).filterMap
    (fun i => errOf (JsonPathReplacer.replace (Json.obj context) i))

theorem renderTokens_errors (f : String → Except String String)
    (ts : List Tok) :
    (renderTokens f ts).2 = ts.filterMap
      (fun t => match t with
        | Tok.lit _ => none
        | Tok.expr i => errOf (f i)) := by
  induction ts with
  | nil => rfl
  | cons t ts ih =>
    cases t with
    | lit s => simp [renderTokens, ih]
    | expr i =>
      cases hf : f i <;> simp [renderTokens, ih, hf, errOf]

theorem replace_all_errors (f : String → Except String String)
    (cs : List Char) :
    (replace_all f cs).2 =
      (templateSites cs).filterMap (fun i => errOf (f i)) := by
  rw [replace_all, renderTokens_errors, templateSites,
    List.filterMap_filterMap]
  congr 1
  funext t
  cases t <;> simp

theorem splitDots_ne_nil : ∀ cs : List Char, splitDots cs ≠ [] := by
  intro cs
  induction cs with
  | nil => simp [splitDots]
  | cons c rest ih =>
    by_cases h : c = '.'
    · subst h; simp [splitDots]
    · rcases hs : splitDots rest with _ | ⟨s, ss⟩
      · exact absurd hs ih
      · simp [splitDots, h, hs]

theorem parsePath_ne_nil (e : String) (segs : List Seg)
    (h : parsePath e = some segs) : segs ≠ [] := by
  rw [parsePath] at h
  rcases hs : splitDots e.toList with _ | ⟨s, ss⟩
  · exact absurd hs (splitDots_ne_nil _)
  · rw [hs, parseSegs] at h
    cases h1 : parseSeg s <;> rw [h1] at h
    · simp at h
    · cases h2 : parseSegs ss <;> rw [h2] at h
      · simp at h
      · simp at h
        rw [← h]
        simp

theorem findPath_obj_nil (segs : List Seg) (h : segs ≠ []) :
    findPath segs (Json.obj []) = [] := by
  cases segs with
  | nil => exact absurd rfl h
  | cons s rest => cases s <;> simp [findPath]

/-! Concrete fixtures used by counterexamples and witnesses. -/

/-- Execution environment in which every spawn succeeds and every command
exits with status 1. -/
def env0 : ExecEnv := ⟨fun _ _ => Except.ok 1⟩

/-- Execution environment in which every spawn succeeds and every command
exits with status 0. -/
def envOk : ExecEnv := ⟨fun _ _ => Except.ok 0⟩

/-- A concrete issue-comment event. -/
def event0 : IssueCommentEvent :=
  { common := { action := "created", sender := { login := "alice" } }
    comment :=
      { author_association := AuthorAssociation.owner
        body := "/test"
        id := 1
        user := { login := "alice" } }
    issue :=
      { author_association := AuthorAssociation.owner
        body := none
        comments := 0
        id := 7
        labels := []
        locked := false
        number := 42
        pull_request := none
        url := "http://example/issue/42" } }

/-- A rule block whose `if` list is empty and whose single step runs
`echo hi`. -/
def emptyIfBlock : OnIssueComment :=
  { common := { steps := [Step.Run "echo hi"] }, if_ := [] }

/-! Claim theorems. -/

/-- C1, counterexample: a rule block whose `if` list is empty matches and
its step IS executed — `OnIssueComment.run` returns the nonempty trace of
the spawned `sh -c "echo hi"`, not the empty trace the claim requires
("the block does not match and its steps are not executed"). The empty
top-level condition list is vacuously true, not false. -/
theorem C1_counterexample :
    OnIssueComment.run env0 emptyIfBlock Json.null event0 =
      Except.ok [("sh", ["-c", "echo hi"])] ∧
    (Except.ok [("sh", ["-c", "echo hi"])] : Except String Trace) ≠
      Except.ok ([] : Trace) := by
  constructor
  · simp [OnIssueComment.run, emptyIfBlock, runSteps, Step.run, runShell,
      ctxMap, env0, eval, replace_all, tokenize, renderTokens, findInterior]
    rfl
  · simp

/-- C1, amended: for every issue-comment rule block whose `if` condition
list is empty and for every event, the block matches vacuously and its
steps ARE executed — the top-level `if` list is a conjunction whose empty
case is true (both the block's own loop and the list `Eval` impl return
true on the empty list), not false as the claim states. -/
theorem C1_empty_if_runs_steps (env : ExecEnv) (b : OnIssueComment)
    (context : Json) (payload : IssueCommentEvent) (h : b.if_ = []) :
    OnIssueComment.run env b context payload =
      runSteps env b.common.steps context ∧
    evalVec b.if_ payload = true := by
  rw [OnIssueComment.run, evalVec, h]
  simp

/-- Witness for C1 at a concrete block and event. -/
theorem C1_witness :
    (OnIssueComment.run env0 emptyIfBlock Json.null event0 =
      runSteps env0 emptyIfBlock.common.steps Json.null ∧
    evalVec emptyIfBlock.if_ event0 = true) :=
  C1_empty_if_runs_steps env0 emptyIfBlock Json.null event0 rfl

/-- C2, counterexample: with an environment in which every spawned command
exits with status 1, a two-step block runs BOTH steps and reports success —
the non-zero exit of the first step neither surfaces an error nor stops the
second step, contradicting the claim that a non-zero exit is a step failure
that aborts the remaining steps. -/
theorem C2_counterexample :
    runSteps env0 [Step.Run "a", Step.Run "b"] (Json.obj []) =
      Except.ok [("sh", ["-c", "a"]), ("sh", ["-c", "b"])] := by
  simp [runSteps, Step.run, runShell, ctxMap, env0, eval, replace_all,
    tokenize, renderTokens, findInterior]
  constructor <;> rfl

/-- C2, amended: a step fails only when its template fails to render or the
process cannot be spawned; the captured exit status is discarded
(`cmd.status()?` in src/runner.rs line 168 only propagates spawn errors), so
whenever the spawn succeeds — whatever the exit status, zero or not — the
step succeeds and the remaining steps of the block (and subsequent blocks)
still execute. -/
theorem C2_exit_status_ignored (env : ExecEnv) (command : String)
    (context : Json) (rendered : String) (st : Int) (rest : List Step)
    (hr : eval command (ctxMap context) = Except.ok rendered)
    (hs : env.sh "sh" ["-c", rendered] = Except.ok st) :
    runShell env command context = Except.ok [("sh", ["-c", rendered])] ∧
    runSteps env (Step.Run command :: rest) context =
      (runSteps env rest context).map
        (fun ts => ("sh", ["-c", rendered]) :: ts) := by
  have h1 : runShell env command context =
      Except.ok [("sh", ["-c", rendered])] := by
    simp [runShell, hr, hs]
  refine ⟨h1, ?_⟩
  rw [runSteps, Step.run, h1]
  cases hrest : runSteps env rest context <;> simp [Except.map]

/-- Witness for C2 at a concrete environment in which the first command
exits with status 1. -/
theorem C2_witness :
    (runShell env0 "a" (Json.obj []) = Except.ok [("sh", ["-c", "a"])] ∧
    runSteps env0 [Step.Run "a", Step.Run "b"] (Json.obj []) =
      (runSteps env0 [Step.Run "b"] (Json.obj [])).map
        (fun ts => ("sh", ["-c", "a"]) :: ts)) :=
  C2_exit_status_ignored env0 "a" (Json.obj []) "a" 1 [Step.Run "b"]
    (by simp [ctxMap, eval, replace_all, tokenize, renderTokens,
          findInterior]
        rfl)
    rfl

/-- C3: evaluation of the recursive combinators follows the boolean
algorithm of spec section 4.1 — `not` negates its child's verdict, `and` of
the empty list is false and otherwise the left-to-right short-circuit
conjunction of the children's verdicts, `or` of the empty list is false and
otherwise the left-to-right short-circuit disjunction (`List.all` and
`List.any` are exactly those left-to-right short-circuit folds). -/
theorem C3_combinator_semantics (c : IfIssueComment)
    (l : List IfIssueComment) (payload : IssueCommentEvent) :
    (IfIssueComment.neg c).eval payload = !(c.eval payload) ∧
    (IfIssueComment.conj []).eval payload = false ∧
    (IfIssueComment.disj []).eval payload = false ∧
    (l ≠ [] → (IfIssueComment.conj l).eval payload =
      l.all (fun c => c.eval payload)) ∧
    (l ≠ [] → (IfIssueComment.disj l).eval payload =
      l.any (fun c => c.eval payload)) := by
  refine ⟨?_, ?_, ?_, ?_, ?_⟩
  · rw [IfIssueComment.eval]
  · rw [IfIssueComment.eval]; rfl
  · rw [IfIssueComment.eval]; rfl
  · intro h
    cases l with
    | nil => exact absurd rfl h
    | cons c' rest =>
      rw [IfIssueComment.eval]
      simp [evalConj_eq_all]
  · intro h
    cases l with
    | nil => exact absurd rfl h
    | cons c' rest =>
      rw [IfIssueComment.eval]
      simp [evalDisj_eq_any]

/-- C6: the `command(name)` leaf is true iff the body's first line, after
trimming surrounding whitespace, starts with `/` followed by `name`; an
empty body gives false, and the test is a prefix test — body `/testing`
satisfies `command("test")` while `foo /test` does not. -/
theorem C6_command_matching (name : String) (body : String) :
    (is_command name body = true ↔
      ∃ line, firstLine body.toList = some line ∧
        List.isPrefixOf ('/' :: name.toList) (trimChars line) = true) ∧
    is_command name "" = false ∧
    is_command "test" "/testing" = true ∧
    is_command "test" "foo /test" = false ∧
    is_command "test" "/test\nmore text" = true := by
  refine ⟨?_, ?_, ?_, ?_, ?_⟩
  · rw [is_command]
    cases h : firstLine body.toList <;> simp [h]
  · rfl
  · rfl
  · decide
  · decide

/-- C4: rendering is all-or-nothing — every delimiter site of the template
is evaluated independently (`renderErrors` collects the failures of all
sites, in order, with no short-circuit), and the render's outcome is fully
determined by that collection: no error gives the fully substituted string,
exactly one error is surfaced alone, two or more are surfaced as one
aggregated error naming them all, and whenever any error was recorded no
string — in particular no partially substituted one — is returned. -/
theorem C4_render_all_or_nothing (text : String)
    (context : List (String × Json)) :
    (renderErrors text context = [] →
      eval text context = Except.ok
        (replace_all (JsonPathReplacer.replace (Json.obj context))
          text.toList).1) ∧
    (∀ e, renderErrors text context = [e] →
      eval text context = Except.error e) ∧
    (2 ≤ (renderErrors text context).length →
      eval text context = Except.error
        ("Failed with multiple errors: " ++
          toString (renderErrors text context))) ∧
    (renderErrors text context ≠ [] →
      ∀ s, eval text context ≠ Except.ok s) := by
  have hE : (replace_all (JsonPathReplacer.replace (Json.obj context))
      text.toList).2 = renderErrors text context := by
    rw [replace_all_errors, renderErrors]
  refine ⟨?_, ?_, ?_, ?_⟩
  · intro h
    rw [eval]
    simp only [hE, h]
  · intro e h
    rw [eval]
    simp only [hE, h]
  · intro h
    rcases hL : renderErrors text context with _ | ⟨a, rest⟩
    · rw [hL] at h; simp at h
    · rcases rest with _ | ⟨b, rest2⟩
      · rw [hL] at h; simp at h
      · rw [eval]
        simp only [hE, hL]
  · intro h s
    rcases hL : renderErrors text context with _ | ⟨a, rest⟩
    · exact absurd hL h
    · rcases rest with _ | ⟨b, rest2⟩ <;>
        · rw [eval]
          simp only [hE, hL]
          simp

/-- C5: only scalar matches — strings, numbers, booleans — are kept from
the path query's result set (`scalarString` drops objects, arrays and
nulls), and the substitution follows the result-set policy: zero scalar
matches substitute the empty string without failing, exactly one match
substitutes its canonical textual form, and two or more matches produce a
per-expression ambiguity error. -/
theorem C5_result_set_policy (context : Json) (expr : String)
    (segs : List Seg)
    (h : parsePath (String.mk (trimChars expr.toList)) = some segs) :
    ((findPath segs context).filterMap scalarString = [] →
      JsonPathReplacer.replace context expr = Except.ok "") ∧
    (∀ s, (findPath segs context).filterMap scalarString = [s] →
      JsonPathReplacer.replace context expr = Except.ok s) ∧
    (2 ≤ ((findPath segs context).filterMap scalarString).length →
      JsonPathReplacer.replace context expr = Except.error
        ("More than one item found: " ++
          toString ((findPath segs context).filterMap scalarString))) := by
  refine ⟨?_, ?_, ?_⟩
  · intro hv
    rw [JsonPathReplacer.replace, h]
    simp only [hv]
  · intro s hv
    rw [JsonPathReplacer.replace, h]
    simp only [hv]
  · intro hv
    rcases hL : (findPath segs context).filterMap scalarString
      with _ | ⟨a, rest⟩
    · rw [hL] at hv; simp at hv
    · rcases rest with _ | ⟨b, rest2⟩
      · rw [hL] at hv; simp at hv
      · rw [JsonPathReplacer.replace, h]
        simp only [hL]

/-- Witness for C5 at a concrete context holding one scalar under `foo`. -/
theorem C5_witness :
    ((findPath [Seg.field "foo"]
        (Json.obj [("foo", Json.str "v")])).filterMap scalarString = [] →
      JsonPathReplacer.replace (Json.obj [("foo", Json.str "v")]) " foo " =
        Except.ok "") ∧
    (∀ s, (findPath [Seg.field "foo"]
        (Json.obj [("foo", Json.str "v")])).filterMap scalarString = [s] →
      JsonPathReplacer.replace (Json.obj [("foo", Json.str "v")]) " foo " =
        Except.ok s) ∧
    (2 ≤ ((findPath [Seg.field "foo"]
        (Json.obj [("foo", Json.str "v")])).filterMap scalarString).length →
      JsonPathReplacer.replace (Json.obj [("foo", Json.str "v")]) " foo " =
        Except.error ("More than one item found: " ++
          toString ((findPath [Seg.field "foo"]
            (Json.obj [("foo", Json.str "v")])).filterMap scalarString))) :=
  C5_result_set_policy (Json.obj [("foo", Json.str "v")]) " foo "
    [Seg.field "foo"] (by decide)

/-- C7, counterexample: the step executor invokes the rendered string as
`sh` with argument vector `["-c", rendered]` and nothing else — the
recorded invocation carries neither `-e` (fail on the first erroring
command) nor `-o pipefail` (pipeline failure on any failing stage), and the
rendered string is passed through unchanged, so neither option claimed
enabled is enabled for the invocation. -/
theorem C7_counterexample :
    runShell envOk "true | false" (Json.obj []) =
      Except.ok [("sh", ["-c", "true | false"])] ∧
    "-e" ∉ ["-c", "true | false"] ∧
    "-o" ∉ ["-c", "true | false"] ∧
    "pipefail" ∉ ["-c", "true | false"] := by
  refine ⟨?_, by decide, by decide, by decide⟩
  simp [runShell, ctxMap, envOk, eval, replace_all, tokenize, renderTokens,
    findInterior]
  rfl

/-- C7, amended: every step that renders successfully is invoked as a
single non-interactive shell command, `sh -c <rendered>`, with the rendered
string passed through verbatim; no further shell options are supplied, so
neither errexit ("fail on first error") nor pipefail is enabled for the
invocation. -/
theorem C7_plain_sh_invocation (env : ExecEnv) (command : String)
    (context : Json) (t : Trace)
    (h : runShell env command context = Except.ok t) :
    ∃ rendered, eval command (ctxMap context) = Except.ok rendered ∧
      t = [("sh", ["-c", rendered])] := by
  rw [runShell] at h
  cases he : eval command (ctxMap context) with
  | error e => rw [he] at h; simp at h
  | ok rendered =>
    rw [he] at h
    simp only [] at h
    cases hs : env.sh "sh" ["-c", rendered] with
    | error e => rw [hs] at h; simp at h
    | ok st =>
      rw [hs] at h
      simp only [Except.ok.injEq] at h
      exact ⟨rendered, rfl, h.symm⟩

/-- Witness for C7 at a concrete rendered command. -/
theorem C7_witness :
    ∃ rendered, eval "true" (ctxMap (Json.obj [])) = Except.ok rendered ∧
      ([("sh", ["-c", "true"])] : Trace) = [("sh", ["-c", rendered])] :=
  C7_plain_sh_invocation envOk "true" (Json.obj []) [("sh", ["-c", "true"])]
    (by simp [runShell, ctxMap, envOk, eval, replace_all, tokenize,
          renderTokens, findInterior]
        rfl)

/-- C8: for every event whose kind is not `issue_comment`, the run fails
with the fatal "Unknown or unsupported event type" error — independently of
the configuration, of the execution environment and of the payload, so no
condition is evaluated and no step runs. -/
theorem C8_unknown_event_kind (name : String) (h : name ≠ "issue_comment")
    (env : ExecEnv) (payload : Except String IssueCommentEvent)
    (cfg : Config) (context : Json) :
    mainRun env (some name) payload cfg context =
      Except.error ("Unknown or unsupported event type: " ++ name) := by
  have hfe : Event.from_env (some name) payload =
      Except.error ("Unknown or unsupported event type: " ++ name) := by
    rw [Event.from_env]
    simp only [if_neg h]
  rw [mainRun, hfe]

/-- Witness for C8 at the event kind `push`. -/
theorem C8_witness :
    mainRun env0 (some "push") (Except.error "no payload")
      { «on» := { issue := none, issue_comment := some [emptyIfBlock] } }
      Json.null =
      Except.error ("Unknown or unsupported event type: " ++ "push") :=
  C8_unknown_event_kind "push" (by decide) env0 (Except.error "no payload")
    { «on» := { issue := none, issue_comment := some [emptyIfBlock] } }
    Json.null

/-- C9: for an issue-comment event, a rule file that defines no rule blocks
for the issue-comment kind — the key absent, or present with an empty block
list — makes the run end successfully with no action taken: the result is
`Ok` with an empty invocation trace (which `main` turns into exit status
zero). -/
theorem C9_no_rule_blocks (env : ExecEnv) (cfg : Config) (context : Json)
    (payload : IssueCommentEvent)
    (h : cfg.«on».issue_comment = none ∨ cfg.«on».issue_comment = some []) :
    Config.run env cfg context (Event.issueComment payload) =
      Except.ok ([] : Trace) := by
  rcases h with h | h <;> simp [Config.run, h, runBlocks]

/-- Witness for C9 at a configuration without issue-comment rule blocks. -/
theorem C9_witness :
    Config.run env0 { «on» := { issue := none, issue_comment := none } }
      Json.null (Event.issueComment event0) = Except.ok ([] : Trace) :=
  C9_no_rule_blocks env0 { «on» := { issue := none, issue_comment := none } }
    Json.null event0 (Or.inl rfl)

/-- C10: executing a run step against a context value that is not a JSON
object renders the template against the empty object instead (the step
behaves exactly as with the empty-object context rather than erroring on
the non-object value), and against the empty object every path expression
that compiles matches zero values and therefore substitutes the empty
string. -/
theorem C10_non_object_context (context : Json)
    (h : ∀ m, context ≠ Json.obj m) (env : ExecEnv) (command : String) :
    runShell env command context = runShell env command (Json.obj []) ∧
    ∀ expr segs, parsePath (String.mk (trimChars expr.toList)) = some segs →
      findPath segs (Json.obj []) = [] ∧
      JsonPathReplacer.replace (Json.obj []) expr = Except.ok "" := by
  constructor
  · have hc : ctxMap context = ctxMap (Json.obj []) := by
      cases context with
      | obj m => exact absurd rfl (h m)
      | null => rfl
      | bool b => rfl
      | num n => rfl
      | str s => rfl
      | arr elems => rfl
    rw [runShell, runShell, hc]
  · intro expr segs hp
    have hnil : findPath segs (Json.obj []) = [] :=
      findPath_obj_nil segs (parsePath_ne_nil _ segs hp)
    refine ⟨hnil, ?_⟩
    rw [JsonPathReplacer.replace, hp]
    simp only [hnil, List.filterMap_nil]

/-- Witness for C10 at the non-object context `null`. -/
theorem C10_witness :
    runShell envOk "c" Json.null = runShell envOk "c" (Json.obj []) ∧
    ∀ expr segs, parsePath (String.mk (trimChars expr.toList)) = some segs →
      findPath segs (Json.obj []) = [] ∧
      JsonPathReplacer.replace (Json.obj []) expr = Except.ok "" :=
  C10_non_object_context Json.null (fun _ heq => Json.noConfusion heq)
    envOk "c"

end Rodbot
